import Mathlib

/-!
Shallow embedding of `src/optional.h`: a value-semantic optional container
`Optional<T>` with inline storage (`alignas(T) char data_[sizeof(T)]`), a
presence flag `is_initialized_`, and a typed handle `value_ptr_` that points
into `data_` exactly when a live `T` has been placement-constructed there.

Embedding conventions:
* The byte buffer `data_` together with the pointer `value_ptr_` is modelled
  as a single field `data_ : Option T`: `some v` means the buffer currently
  holds a live `T` with value `v` (and `value_ptr_` points at it), `none`
  means no live object occupies the buffer.  Dereferencing `value_ptr_` is
  modelled as reading this `Option T`; a read in a state where no live object
  exists (undefined behavior in the source) surfaces as `none`.
* Every operation that runs constructors or destructors of `T` is embedded as
  a function returning an `Eff`: the resulting box together with the number of
  `T`-constructions (`ctors`) and `T`-destructions (`dtors`) the operation
  performed.  This lets lifetime claims (leaks, double-destroys) be stated as
  count equations.
* `std::move` of a `T` leaves a valid moved-from object behind; the
  moved-from state is modelled by an arbitrary function `mv : T → T` applied
  to the moved value.
* A throwing copy constructor of `T` (for the exception-safety claim) is
  modelled by a fallible copy function `copyF : T → Except E T`; a C++
  constructor that propagates such an exception is embedded as a function
  into `Except E (Optional T)`, the error case meaning that no box object
  comes into existence.
-/

namespace OptionalSpec

/-- `class BadOptionalAccess : public std::exception` — the single error type
of the container (the spec calls it EmptyAccessError).  Its only data is its
identity; `what` is the message the source returns. -/
inductive BadOptionalAccess where
  | mk
deriving DecidableEq, Repr

/-- `what()` of `BadOptionalAccess`. -/
def BadOptionalAccess.what : BadOptionalAccess → String
  | .mk => "Bad optional access"

/-- The state of one `Optional<T>` object.  `is_initialized_` is the presence
flag; `data_` is the contents of the inline buffer (`some v` iff a live `T`
with value `v` is placement-constructed in it; this also stands for
`value_ptr_`, which is non-null and points at the buffer exactly when a live
object exists). -/
structure Optional (T : Type) where
  is_initialized_ : Bool
  data_ : Option T
deriving DecidableEq, Repr

/-- The class invariant the source maintains: the presence flag is true
exactly when the buffer holds a live object. -/
def WF {T : Type} (b : Optional T) : Prop :=
  b.is_initialized_ = b.data_.isSome

instance {T : Type} (b : Optional T) : Decidable (WF b) := by
  unfold WF; infer_instance

/-- Result of an operation that may construct or destroy contained `T`
values: the resulting box plus the number of `T`-constructions and
`T`-destructions performed inside the box. -/
structure Eff (T : Type) where
  box : Optional T
  ctors : Nat
  dtors : Nat
deriving DecidableEq, Repr

namespace Optional

variable {T : Type}

/-- `Optional() = default;` — empty box, no live object. -/
def mkDefault : Optional T := ⟨false, none⟩

/-- `bool HasValue() const { return is_initialized_; }` -/
def HasValue (b : Optional T) : Bool := b.is_initialized_

/-- `Optional(const T& value)` — placement-copy-constructs a `T` from `value`
in the buffer and sets the flag: one `T`-construction. -/
def mkFromValueCopyE (v : T) : Eff T := ⟨⟨true, some v⟩, 1, 0⟩

/-- `Optional(T&& value)` — placement-move-constructs a `T` from `value` in
the buffer and sets the flag: one `T`-construction.  (The caller-owned bare
value becomes moved-from; it is outside the box so not tracked here.) -/
def mkFromValueMoveE (v : T) : Eff T := ⟨⟨true, some v⟩, 1, 0⟩

/-- `Optional(const Optional& other)` — if the source is initialized,
placement-copy-constructs `T(other.Value())` in this box's own buffer (one
`T`-construction); otherwise stays empty with a null handle. -/
def mkCopyFromE (other : Optional T) : Eff T :=
  if other.is_initialized_ then ⟨⟨true, other.data_⟩, 1, 0⟩
  else ⟨⟨false, none⟩, 0, 0⟩

/-- `Optional(Optional&& other)` — if the source is initialized,
placement-constructs `T(std::move(other.Value()))` in this box's buffer (one
`T`-construction) and leaves the source's value moved-from (`mv` applied);
the source's flag is not touched.  Returns the new box's effect together with
the updated source box. -/
def mkMoveFromE (mv : T → T) (other : Optional T) : Eff T × Optional T :=
  if other.is_initialized_ then
    (⟨⟨true, other.data_⟩, 1, 0⟩, ⟨other.is_initialized_, other.data_.map mv⟩)
  else (⟨⟨false, none⟩, 0, 0⟩, other)

/-- `operator=(const T& value)` — if initialized, `*value_ptr_ = value`
(`T`'s copy assignment, no construction or destruction); otherwise
placement-constructs `T(value)` and sets the flag (one construction). -/
def assignValueCopyE (b : Optional T) (v : T) : Eff T :=
  if b.is_initialized_ then ⟨⟨true, some v⟩, 0, 0⟩
  else ⟨⟨true, some v⟩, 1, 0⟩

/-- `operator=(T&& rhs)` — if initialized, `*value_ptr_ = std::move(rhs)`
(`T`'s move assignment); otherwise placement-constructs `T(std::move(rhs))`
and sets the flag. -/
def assignValueMoveE (b : Optional T) (v : T) : Eff T :=
  if b.is_initialized_ then ⟨⟨true, some v⟩, 0, 0⟩
  else ⟨⟨true, some v⟩, 1, 0⟩

/-- `operator=(const Optional& rhs)` — the four presence cases of the source:
both initialized → `*value_ptr_ = *(rhs.value_ptr_)` (copy assignment);
this empty, source initialized → placement-copy-construct and set flag;
this initialized, source empty → `value_ptr_->~T()` and clear flag;
both empty → no-op. -/
def assignCopyBoxE (b rhs : Optional T) : Eff T :=
  if b.is_initialized_ && rhs.is_initialized_ then
    ⟨⟨b.is_initialized_, rhs.data_⟩, 0, 0⟩
  else if !b.is_initialized_ && rhs.is_initialized_ then
    ⟨⟨true, rhs.data_⟩, 1, 0⟩
  else if b.is_initialized_ && !rhs.is_initialized_ then
    ⟨⟨false, none⟩, 0, 1⟩
  else ⟨b, 0, 0⟩

/-- `operator=(Optional&& rhs)` — same four cases with `std::move` on the
source's contained value; the source box's flag is not touched, its value is
left moved-from.  Returns this box's effect with the updated source box. -/
def assignMoveBoxE (mv : T → T) (b rhs : Optional T) : Eff T × Optional T :=
  if b.is_initialized_ && rhs.is_initialized_ then
    (⟨⟨b.is_initialized_, rhs.data_⟩, 0, 0⟩, ⟨rhs.is_initialized_, rhs.data_.map mv⟩)
  else if !b.is_initialized_ && rhs.is_initialized_ then
    (⟨⟨true, rhs.data_⟩, 1, 0⟩, ⟨rhs.is_initialized_, rhs.data_.map mv⟩)
  else if b.is_initialized_ && !rhs.is_initialized_ then
    (⟨⟨false, none⟩, 0, 1⟩, rhs)
  else (⟨b, 0, 0⟩, rhs)

/-- `void Reset()` — if initialized, `value_ptr_->~T()` (one destruction) and
clear the flag; otherwise no-op. -/
def ResetE (b : Optional T) : Eff T :=
  if b.is_initialized_ then ⟨⟨false, none⟩, 0, 1⟩ else ⟨b, 0, 0⟩

/-- `~Optional() { Reset(); }` — the destructor body: destroys the contained
value iff present, exactly as `Reset` (releasing the inline buffer itself
constructs/destroys no `T`). -/
def destructorE (b : Optional T) : Eff T := ResetE b

/-- `T& Value()` (mutable overload) — throws `BadOptionalAccess` when the
flag is false, otherwise returns `*value_ptr_`, i.e. the buffer contents. -/
def Value (b : Optional T) : Except BadOptionalAccess (Option T) :=
  if b.is_initialized_ then .ok b.data_ else .error .mk

/-- `const T& Value() const` (read-only overload) — identical presence check
and result. -/
def ValueConst (b : Optional T) : Except BadOptionalAccess (Option T) :=
  if b.is_initialized_ then .ok b.data_ else .error .mk

/-- Mutation of the contained value through the unchecked dereference
`operator*` (`*box = f(*box)`): rewrites the buffer contents in place, no
`T`-construction or destruction, flag untouched. -/
def mutateViaDeref (b : Optional T) (f : T → T) : Optional T :=
  ⟨b.is_initialized_, b.data_.map f⟩

/-- `n` consecutive calls of `Reset()` on a box, with the `T`-constructions
and `T`-destructions they perform in total. -/
def resetIterE (n : Nat) (b : Optional T) : Eff T :=
  match n with
  | 0 => ⟨b, 0, 0⟩
  | n + 1 =>
    let e := ResetE b
    let e2 := resetIterE n e.box
    ⟨e2.box, e.ctors + e2.ctors, e.dtors + e2.dtors⟩

/-- `Optional(const T& value)` with a throwing copy constructor of `T`,
modelled by `copyF`: if the copy throws, the Optional object never comes into
existence (`Except.error` carries the propagated exception unchanged);
otherwise the box is fully constructed and present. -/
def mkFromValueCopyF {E : Type} (copyF : T → Except E T) (v : T) :
    Except E (Optional T) :=
  (copyF v).map fun c => ⟨true, some c⟩

/-- `Optional(const Optional& other)` with a throwing copy constructor of
`T`: the copy runs only when the source is initialized; if it throws, no box
comes into existence and the exception propagates unchanged.  (The branch
where an initialized source has no live object in its buffer is undefined
behavior in the source and unreachable from well-formed states.) -/
def mkCopyFromF {E : Type} (copyF : T → Except E T) (other : Optional T) :
    Except E (Optional T) :=
  if other.is_initialized_ then
    match other.data_ with
    | some v => (copyF v).map fun c => ⟨true, some c⟩
    | none => .ok ⟨true, none⟩
  else .ok ⟨false, none⟩

end Optional

/-- Contribution of one box to the number of live contained `T` values. -/
def liveN {T : Type} (b : Optional T) : Nat :=
  if b.is_initialized_ then 1 else 0

/-- One step of a client program over a collection of boxes: every operation
of the container's API, addressed by box index.  New boxes are appended;
`destroy` is the box going out of scope (its destructor runs and the box is
gone).  Operations on indices that name no box do nothing. -/
inductive Op (T : Type) where
  | newDefault
  | newFromValue (v : T)
  | newCopyFrom (i : Nat)
  | newMoveFrom (i : Nat)
  | assignValueCopy (i : Nat) (v : T)
  | assignValueMove (i : Nat) (v : T)
  | assignCopy (i j : Nat)
  | assignMove (i j : Nat)
  | reset (i : Nat)
  | mutate (i : Nat) (f : T → T)
  | destroy (i : Nat)

/-- A client program state: the boxes currently alive, plus running totals of
`T`-constructions and `T`-destructions performed inside boxes. -/
structure World (T : Type) where
  boxes : List (Optional T)
  ctors : Nat
  dtors : Nat
deriving Repr

/-- The empty client program state. -/
def World.empty {T : Type} : World T := ⟨[], 0, 0⟩

/-- Execute one operation on the world. -/
def stepOp {T : Type} (mv : T → T) (w : World T) : Op T → World T
  | .newDefault =>
      ⟨w.boxes ++ [Optional.mkDefault], w.ctors, w.dtors⟩
  | .newFromValue v =>
      let e := Optional.mkFromValueCopyE v
      ⟨w.boxes ++ [e.box], w.ctors + e.ctors, w.dtors + e.dtors⟩
  | .newCopyFrom i =>
      match w.boxes[i]? with
      | some src =>
          let e := Optional.mkCopyFromE src
          ⟨w.boxes ++ [e.box], w.ctors + e.ctors, w.dtors + e.dtors⟩
      | none => w
  | .newMoveFrom i =>
      match w.boxes[i]? with
      | some src =>
          let p := Optional.mkMoveFromE mv src
          ⟨w.boxes.set i p.2 ++ [p.1.box], w.ctors + p.1.ctors, w.dtors + p.1.dtors⟩
      | none => w
  | .assignValueCopy i v =>
      match w.boxes[i]? with
      | some b =>
          let e := Optional.assignValueCopyE b v
          ⟨w.boxes.set i e.box, w.ctors + e.ctors, w.dtors + e.dtors⟩
      | none => w
  | .assignValueMove i v =>
      match w.boxes[i]? with
      | some b =>
          let e := Optional.assignValueMoveE b v
          ⟨w.boxes.set i e.box, w.ctors + e.ctors, w.dtors + e.dtors⟩
      | none => w
  | .assignCopy i j =>
      match w.boxes[i]?, w.boxes[j]? with
      | some b, some rhs =>
          let e := Optional.assignCopyBoxE b rhs
          ⟨w.boxes.set i e.box, w.ctors + e.ctors, w.dtors + e.dtors⟩
      | _, _ => w
  | .assignMove i j =>
      match w.boxes[i]?, w.boxes[j]? with
      | some b, some rhs =>
          let p := Optional.assignMoveBoxE mv b rhs
          ⟨(w.boxes.set i p.1.box).set j p.2, w.ctors + p.1.ctors, w.dtors + p.1.dtors⟩
      | _, _ => w
  | .reset i =>
      match w.boxes[i]? with
      | some b =>
          let e := Optional.ResetE b
          ⟨w.boxes.set i e.box, w.ctors + e.ctors, w.dtors + e.dtors⟩
      | none => w
  | .mutate i f =>
      match w.boxes[i]? with
      | some b => ⟨w.boxes.set i (b.mutateViaDeref f), w.ctors, w.dtors⟩
      | none => w
  | .destroy i =>
      match w.boxes[i]? with
      | some b =>
          let e := Optional.destructorE b
          ⟨w.boxes.eraseIdx i, w.ctors + e.ctors, w.dtors + e.dtors⟩
      | none => w

/-- Execute a whole sequence of operations from left to right. -/
def runOps {T : Type} (mv : T → T) (ops : List (Op T)) (w : World T) : World T :=
  ops.foldl (stepOp mv) w

/-- Destructions performed when all remaining boxes go out of scope. -/
def drainDtors {T : Type} : List (Optional T) → Nat
  | [] => 0
  | b :: bs => (Optional.destructorE b).dtors + drainDtors bs

/-- Final scope exit: every remaining box is destroyed. -/
def drainAll {T : Type} (w : World T) : World T :=
  ⟨[], w.ctors, w.dtors + drainDtors w.boxes⟩

/-- Number of live contained `T` values across the world's boxes. -/
def liveCount {T : Type} (w : World T) : Nat :=
  w.boxes.countP fun b => b.is_initialized_

/-- The lifetime accounting invariant: every construction not yet matched by
a destruction is a currently live contained value. -/
def Balanced {T : Type} (w : World T) : Prop :=
  w.ctors = w.dtors + liveCount w

section Lemmas

variable {T A : Type}

theorem countP_set_add (p : A → Bool) (l : List A) (i : Nat) (a b : A)
    (h : l[i]? = some a) :
    (l.set i b).countP p + (if p a then 1 else 0)
      = l.countP p + (if p b then 1 else 0) := by
  induction l generalizing i with
  | nil => simp at h
  | cons c t ih =>
    cases i with
    | zero =>
      simp only [List.getElem?_cons_zero, Option.some.injEq] at h
      subst h
      simp [List.countP_cons]
      omega
    | succ n =>
      simp only [List.getElem?_cons_succ] at h
      simp only [List.set_cons_succ, List.countP_cons]
      have := ih n h
      omega

theorem countP_eraseIdx_add (p : A → Bool) (l : List A) (i : Nat) (a : A)
    (h : l[i]? = some a) :
    (l.eraseIdx i).countP p + (if p a then 1 else 0) = l.countP p := by
  induction l generalizing i with
  | nil => simp at h
  | cons c t ih =>
    cases i with
    | zero =>
      simp only [List.getElem?_cons_zero, Option.some.injEq] at h
      subst h
      simp [List.countP_cons]
    | succ n =>
      simp only [List.getElem?_cons_succ] at h
      simp only [List.eraseIdx_cons_succ, List.countP_cons]
      have := ih n h
      omega

theorem liveCount_append_single (w : List (Optional T)) (b : Optional T) :
    (w ++ [b]).countP (fun x => x.is_initialized_)
      = w.countP (fun x => x.is_initialized_) + liveN b := by
  simp [List.countP_append, List.countP_cons, liveN]

theorem ResetE_spec (b : Optional T) :
    (Optional.ResetE b).box = Optional.mkDefault ∨ (Optional.ResetE b).box = b := by
  unfold Optional.ResetE Optional.mkDefault
  split <;> simp

theorem ResetE_flag (b : Optional T) :
    (Optional.ResetE b).box.is_initialized_ = false ∨
      ((Optional.ResetE b).box = b ∧ b.is_initialized_ = false) := by
  unfold Optional.ResetE
  split
  · simp
  · rename_i h
    simp only [Bool.not_eq_true] at h
    exact Or.inr ⟨rfl, h⟩

theorem ResetE_counts (b : Optional T) :
    (Optional.ResetE b).ctors = 0 ∧ (Optional.ResetE b).dtors = liveN b ∧
      liveN (Optional.ResetE b).box = 0 := by
  unfold Optional.ResetE liveN
  cases h : b.is_initialized_ <;> simp [h]

theorem mkCopyFromE_balance (src : Optional T) :
    (Optional.mkCopyFromE src).ctors
      = (Optional.mkCopyFromE src).dtors + liveN (Optional.mkCopyFromE src).box := by
  unfold Optional.mkCopyFromE liveN
  cases h : src.is_initialized_ <;> simp [h]

theorem mkMoveFromE_balance (mv : T → T) (src : Optional T) :
    (Optional.mkMoveFromE mv src).1.ctors
      = (Optional.mkMoveFromE mv src).1.dtors
        + liveN (Optional.mkMoveFromE mv src).1.box ∧
      liveN (Optional.mkMoveFromE mv src).2 = liveN src := by
  unfold Optional.mkMoveFromE liveN
  cases h : src.is_initialized_ <;> simp [h]

theorem assignValueCopyE_balance (b : Optional T) (v : T) :
    (Optional.assignValueCopyE b v).ctors + liveN b
      = (Optional.assignValueCopyE b v).dtors
        + liveN (Optional.assignValueCopyE b v).box := by
  unfold Optional.assignValueCopyE liveN
  cases h : b.is_initialized_ <;> simp [h]

theorem assignValueMoveE_balance (b : Optional T) (v : T) :
    (Optional.assignValueMoveE b v).ctors + liveN b
      = (Optional.assignValueMoveE b v).dtors
        + liveN (Optional.assignValueMoveE b v).box := by
  unfold Optional.assignValueMoveE liveN
  cases h : b.is_initialized_ <;> simp [h]

theorem assignCopyBoxE_balance (b rhs : Optional T) :
    (Optional.assignCopyBoxE b rhs).ctors + liveN b
      = (Optional.assignCopyBoxE b rhs).dtors
        + liveN (Optional.assignCopyBoxE b rhs).box := by
  unfold Optional.assignCopyBoxE liveN
  cases hb : b.is_initialized_ <;> cases hr : rhs.is_initialized_ <;> simp [hb, hr]

theorem assignMoveBoxE_balance (mv : T → T) (b rhs : Optional T) :
    (Optional.assignMoveBoxE mv b rhs).1.ctors + liveN b
      = (Optional.assignMoveBoxE mv b rhs).1.dtors
        + liveN (Optional.assignMoveBoxE mv b rhs).1.box ∧
      liveN (Optional.assignMoveBoxE mv b rhs).2 = liveN rhs ∧
      (Optional.assignMoveBoxE mv b rhs).1.box.is_initialized_
        = rhs.is_initialized_ := by
  unfold Optional.assignMoveBoxE liveN
  cases hb : b.is_initialized_ <;> cases hr : rhs.is_initialized_ <;> simp [hb, hr]

theorem drainDtors_eq_liveCount (l : List (Optional T)) :
    drainDtors l = l.countP fun b => b.is_initialized_ := by
  induction l with
  | nil => simp [drainDtors]
  | cons b bs ih =>
    simp only [drainDtors, List.countP_cons, ih, Optional.destructorE]
    have := ResetE_counts b
    unfold liveN at this
    omega

theorem live_set_add (l : List (Optional T)) (i : Nat) (a b : Optional T)
    (h : l[i]? = some a) :
    (l.set i b).countP (fun x => x.is_initialized_) + liveN a
      = l.countP (fun x => x.is_initialized_) + liveN b :=
  countP_set_add _ l i a b h

theorem live_eraseIdx_add (l : List (Optional T)) (i : Nat) (a : Optional T)
    (h : l[i]? = some a) :
    (l.eraseIdx i).countP (fun x => x.is_initialized_) + liveN a
      = l.countP (fun x => x.is_initialized_) :=
  countP_eraseIdx_add _ l i a h

theorem stepOp_balanced (mv : T → T) (w : World T) (op : Op T)
    (hw : Balanced w) : Balanced (stepOp mv w op) := by
  unfold Balanced liveCount at hw ⊢
  cases op with
  | newDefault =>
    simp only [stepOp, liveCount_append_single]
    simp [Optional.mkDefault, liveN]
    omega
  | newFromValue v =>
    simp only [stepOp, liveCount_append_single]
    simp [Optional.mkFromValueCopyE, liveN]
    omega
  | newCopyFrom i =>
    simp only [stepOp]
    cases h : w.boxes[i]? with
    | none => exact hw
    | some src =>
      dsimp only
      simp only [liveCount_append_single]
      have hb := mkCopyFromE_balance src
      omega
  | newMoveFrom i =>
    simp only [stepOp]
    cases h : w.boxes[i]? with
    | none => exact hw
    | some src =>
      dsimp only
      simp only [liveCount_append_single]
      have hb := mkMoveFromE_balance mv src
      have hs := live_set_add w.boxes i src (Optional.mkMoveFromE mv src).2 h
      omega
  | assignValueCopy i v =>
    simp only [stepOp]
    cases h : w.boxes[i]? with
    | none => exact hw
    | some b =>
      dsimp only
      have hb := assignValueCopyE_balance b v
      have hs := live_set_add w.boxes i b (Optional.assignValueCopyE b v).box h
      omega
  | assignValueMove i v =>
    simp only [stepOp]
    cases h : w.boxes[i]? with
    | none => exact hw
    | some b =>
      dsimp only
      have hb := assignValueMoveE_balance b v
      have hs := live_set_add w.boxes i b (Optional.assignValueMoveE b v).box h
      omega
  | assignCopy i j =>
    simp only [stepOp]
    cases h : w.boxes[i]? with
    | none => exact hw
    | some b =>
      cases h2 : w.boxes[j]? with
      | none => exact hw
      | some rhs =>
        dsimp only
        have hb := assignCopyBoxE_balance b rhs
        have hs := live_set_add w.boxes i b (Optional.assignCopyBoxE b rhs).box h
        omega
  | assignMove i j =>
    simp only [stepOp]
    cases h : w.boxes[i]? with
    | none => exact hw
    | some b =>
      cases h2 : w.boxes[j]? with
      | none => exact hw
      | some rhs =>
        dsimp only
        have hb := assignMoveBoxE_balance mv b rhs
        have hs := live_set_add w.boxes i b (Optional.assignMoveBoxE mv b rhs).1.box h
        by_cases hij : i = j
        · subst hij
          rw [List.set_set]
          have hs2 := live_set_add w.boxes i b (Optional.assignMoveBoxE mv b rhs).2 h
          have hbb : b = rhs := by
            rw [h] at h2; exact Option.some.inj h2
          subst hbb
          have hfl : liveN (Optional.assignMoveBoxE mv b b).1.box = liveN b := by
            unfold liveN
            rw [hb.2.2]
          omega
        · have hj : (w.boxes.set i (Optional.assignMoveBoxE mv b rhs).1.box)[j]?
              = some rhs := by
            rw [List.getElem?_set_ne hij, h2]
          have hs2 := live_set_add (w.boxes.set i (Optional.assignMoveBoxE mv b rhs).1.box)
            j rhs (Optional.assignMoveBoxE mv b rhs).2 hj
          omega
  | reset i =>
    simp only [stepOp]
    cases h : w.boxes[i]? with
    | none => exact hw
    | some b =>
      dsimp only
      have hb := ResetE_counts b
      have hs := live_set_add w.boxes i b (Optional.ResetE b).box h
      omega
  | mutate i f =>
    simp only [stepOp]
    cases h : w.boxes[i]? with
    | none => exact hw
    | some b =>
      dsimp only
      have hs := live_set_add w.boxes i b (b.mutateViaDeref f) h
      have hfl : liveN (b.mutateViaDeref f) = liveN b := by
        unfold liveN Optional.mutateViaDeref
        rfl
      omega
  | destroy i =>
    simp only [stepOp]
    cases h : w.boxes[i]? with
    | none => exact hw
    | some b =>
      dsimp only
      have hb := ResetE_counts b
      have hs := live_eraseIdx_add w.boxes i b h
      simp only [Optional.destructorE]
      omega

theorem runOps_balanced (mv : T → T) (ops : List (Op T)) (w : World T)
    (hw : Balanced w) : Balanced (runOps mv ops w) := by
  induction ops generalizing w with
  | nil => exact hw
  | cons op rest ih =>
    exact ih (stepOp mv w op) (stepOp_balanced mv w op hw)

theorem empty_balanced : Balanced (World.empty (T := T)) := by
  simp [Balanced, World.empty, liveCount]

theorem drainAll_balances (w : World T) (hw : Balanced w) :
    (drainAll w).ctors = (drainAll w).dtors := by
  unfold drainAll
  simp only [drainDtors_eq_liveCount]
  unfold Balanced liveCount at hw
  omega

theorem ResetE_of_empty (b : Optional T) (h : b.is_initialized_ = false) :
    Optional.ResetE b = ⟨b, 0, 0⟩ := by
  unfold Optional.ResetE
  simp [h]

theorem resetIterE_of_empty (n : Nat) (b : Optional T)
    (h : b.is_initialized_ = false) :
    Optional.resetIterE n b = ⟨b, 0, 0⟩ := by
  induction n with
  | zero => rfl
  | succ n ih =>
    simp only [Optional.resetIterE, Optional.ResetE, h]
    simp [ih]

end Lemmas

/-- Claim C1: on a box whose presence flag is false, both overloads of the
fallible accessor `Value()` raise `BadOptionalAccess` (the spec's
EmptyAccessError) and return nothing; on a box whose flag is true they
return the contained value and raise no error; and `BadOptionalAccess` is
the only error the container ever raises. -/
theorem claim_C1 {T : Type} (b : Optional T) (h : WF b) :
    (b.is_initialized_ = false →
      Optional.Value b = .error .mk ∧ Optional.ValueConst b = .error .mk) ∧
    (b.is_initialized_ = true →
      ∃ v, b.data_ = some v ∧ Optional.Value b = .ok (some v) ∧
        Optional.ValueConst b = .ok (some v)) ∧
    (∀ e, (Optional.Value b = .error e ∨ Optional.ValueConst b = .error e) →
      e = BadOptionalAccess.mk) := by
  obtain ⟨bi, bd⟩ := b
  unfold WF at h
  refine ⟨?_, ?_, ?_⟩
  · intro hf
    subst hf
    simp [Optional.Value, Optional.ValueConst]
  · intro ht
    subst ht
    cases bd with
    | none => simp at h
    | some v => exact ⟨v, rfl, by simp [Optional.Value], by simp [Optional.ValueConst]⟩
  · intro e _
    cases e
    rfl

theorem claim_C1_witness :
    Optional.Value (⟨false, none⟩ : Optional Nat) = .error .mk ∧
    Optional.ValueConst (⟨false, none⟩ : Optional Nat) = .error .mk :=
  (claim_C1 ⟨false, none⟩ (by decide)).1 rfl

/-- Claim C2: box-from-box assignment (copy and move) replicates the source's
presence state in all four presence combinations, with the mechanism the
source uses in each: present-from-present runs `T`'s assignment (no
construction, no destruction), empty-from-present placement-constructs one
copy, present-from-empty runs one destruction and marks empty, and
empty-from-empty is a no-op; well-formedness is preserved. -/
theorem claim_C2 {T : Type} (mv : T → T) (b rhs : Optional T)
    (hb : WF b) (hr : WF rhs) :
    (Optional.assignCopyBoxE b rhs).box.is_initialized_ = rhs.is_initialized_ ∧
    (Optional.assignCopyBoxE b rhs).box.data_ = rhs.data_ ∧
    (Optional.assignCopyBoxE b rhs).ctors
      = (if !b.is_initialized_ && rhs.is_initialized_ then 1 else 0) ∧
    (Optional.assignCopyBoxE b rhs).dtors
      = (if b.is_initialized_ && !rhs.is_initialized_ then 1 else 0) ∧
    (Optional.assignMoveBoxE mv b rhs).1.box.is_initialized_
      = rhs.is_initialized_ ∧
    (Optional.assignMoveBoxE mv b rhs).1.box.data_ = rhs.data_ ∧
    (Optional.assignMoveBoxE mv b rhs).1.ctors
      = (if !b.is_initialized_ && rhs.is_initialized_ then 1 else 0) ∧
    (Optional.assignMoveBoxE mv b rhs).1.dtors
      = (if b.is_initialized_ && !rhs.is_initialized_ then 1 else 0) ∧
    WF (Optional.assignCopyBoxE b rhs).box ∧
    WF (Optional.assignMoveBoxE mv b rhs).1.box := by
  obtain ⟨bi, bd⟩ := b
  obtain ⟨ri, rd⟩ := rhs
  unfold WF at hb hr
  cases bi <;> cases ri <;> cases bd <;> cases rd <;>
    simp_all [Optional.assignCopyBoxE, Optional.assignMoveBoxE, WF]

theorem claim_C2_witness :
    (Optional.assignCopyBoxE (⟨true, some 5⟩ : Optional Nat) ⟨false, none⟩).box.is_initialized_
      = false :=
  (claim_C2 (fun x => x) ⟨true, some 5⟩ ⟨false, none⟩ (by decide) (by decide)).1

/-- Claim C3: a box constructed from a value `v` (by copy or by move) has
`HasValue() == true` and its accessor returns `v`; a default-constructed box
has `HasValue() == false`. -/
theorem claim_C3 {T : Type} (v : T) :
    (Optional.mkFromValueCopyE v).box.HasValue = true ∧
    (Optional.mkFromValueMoveE v).box.HasValue = true ∧
    Optional.Value (Optional.mkFromValueCopyE v).box = .ok (some v) ∧
    Optional.Value (Optional.mkFromValueMoveE v).box = .ok (some v) ∧
    (Optional.mkDefault (T := T)).HasValue = false := by
  refine ⟨rfl, rfl, ?_, ?_, rfl⟩ <;>
    simp [Optional.Value, Optional.mkFromValueCopyE, Optional.mkFromValueMoveE]

/-- Claim C4: assigning a bare value `V` into a box never empties it: an
empty box placement-constructs a `T` from `V` (one construction) and becomes
present; a present box assigns `V` into the existing contained value through
`T`'s own assignment operator (no construction, no destruction) and stays
present.  Holds for both the copy and the move overload. -/
theorem claim_C4 {T : Type} (b : Optional T) (v : T) :
    (Optional.assignValueCopyE b v).box.HasValue = true ∧
    (Optional.assignValueCopyE b v).box.data_ = some v ∧
    (Optional.assignValueCopyE b v).ctors = (if b.is_initialized_ then 0 else 1) ∧
    (Optional.assignValueCopyE b v).dtors = 0 ∧
    (Optional.assignValueMoveE b v).box.HasValue = true ∧
    (Optional.assignValueMoveE b v).box.data_ = some v ∧
    (Optional.assignValueMoveE b v).ctors = (if b.is_initialized_ then 0 else 1) ∧
    (Optional.assignValueMoveE b v).dtors = 0 := by
  cases h : b.is_initialized_ <;>
    simp [Optional.assignValueCopyE, Optional.assignValueMoveE,
      Optional.HasValue, h]

/-- Claim C5: over any finite sequence of box operations (construction from
a value, copy- and move-construction from a box, all four assignments,
`Reset`, mutation through the dereference operator, and box destruction at
scope exit), once every box has been destroyed the total number of
`T`-constructions inside boxes equals the total of `T`-destructions — no
contained value leaks and none is destroyed twice — and a box's destructor
has exactly the effect of `Reset()`. -/
theorem claim_C5 {T : Type} (mv : T → T) (ops : List (Op T)) :
    (drainAll (runOps mv ops World.empty)).ctors
      = (drainAll (runOps mv ops World.empty)).dtors ∧
    ∀ b : Optional T, Optional.destructorE b = Optional.ResetE b :=
  ⟨drainAll_balances _ (runOps_balanced mv ops _ empty_balanced),
   fun _ => rfl⟩

/-- Claim C6: `Reset()` always leaves `HasValue() == false`; two consecutive
resets have exactly the effect of one (same resulting box, same construction
and destruction counts); and across any sequence of resets the contained
value's destructor runs at most once. -/
theorem claim_C6 {T : Type} (b : Optional T) (n : Nat) :
    (Optional.ResetE b).box.HasValue = false ∧
    Optional.resetIterE 2 b = Optional.resetIterE 1 b ∧
    (Optional.resetIterE n b).dtors ≤ 1 := by
  have hbox : (Optional.ResetE b).box.is_initialized_ = false := by
    unfold Optional.ResetE
    cases h : b.is_initialized_ <;> simp [h]
  refine ⟨hbox, ?_, ?_⟩
  · have h2 := ResetE_of_empty _ hbox
    simp [Optional.resetIterE, h2]
  · cases n with
    | zero => simp [Optional.resetIterE]
    | succ m =>
      have h2 := resetIterE_of_empty m _ hbox
      simp only [Optional.resetIterE, h2]
      have := ResetE_counts b
      unfold liveN at this
      cases h : b.is_initialized_ <;> simp_all

/-- Claim C7: copy-constructing a box from another replicates the source's
presence state: a present source yields a present box holding one freshly
copy-constructed `T` (one construction, no destruction); an empty source
yields an empty box with no construction at all. -/
theorem claim_C7 {T : Type} (other : Optional T) :
    (Optional.mkCopyFromE other).box.is_initialized_ = other.is_initialized_ ∧
    (Optional.mkCopyFromE other).box.data_
      = (if other.is_initialized_ then other.data_ else none) ∧
    (Optional.mkCopyFromE other).ctors
      = (if other.is_initialized_ then 1 else 0) ∧
    (Optional.mkCopyFromE other).dtors = 0 := by
  cases h : other.is_initialized_ <;> simp [Optional.mkCopyFromE, h]

/-- Claim C8: after copy-constructing a new box from a present box at index
`i` of the world and then mutating box `i`'s contained value through the
dereference operator, the new box (at the end of the world) still holds the
source's pre-mutation value while box `i` holds the mutated one: the two
boxes share no storage. -/
theorem claim_C8 {T : Type} (mv : T → T) (w : World T) (i : Nat) (f : T → T)
    (b : Optional T) (h : w.boxes[i]? = some b)
    (hp : b.is_initialized_ = true) :
    (stepOp mv (stepOp mv w (Op.newCopyFrom i)) (Op.mutate i f)).boxes[w.boxes.length]?
      = some (Optional.mkCopyFromE b).box ∧
    (Optional.mkCopyFromE b).box.data_ = b.data_ ∧
    (stepOp mv (stepOp mv w (Op.newCopyFrom i)) (Op.mutate i f)).boxes[i]?
      = some (b.mutateViaDeref f) := by
  have hlen : i < w.boxes.length := (List.getElem?_eq_some.mp h).1
  have h1 : (stepOp mv w (Op.newCopyFrom i)).boxes
      = w.boxes ++ [(Optional.mkCopyFromE b).box] := by
    simp only [stepOp, h]
  have hget1 : (w.boxes ++ [(Optional.mkCopyFromE b).box])[i]? = some b := by
    simp [List.getElem?_append, hlen, h]
  have h2 : (stepOp mv (stepOp mv w (Op.newCopyFrom i)) (Op.mutate i f)).boxes
      = (w.boxes ++ [(Optional.mkCopyFromE b).box]).set i (b.mutateViaDeref f) := by
    simp only [stepOp, h, hget1]
  refine ⟨?_, ?_, ?_⟩
  · rw [h2, List.getElem?_set_ne (Nat.ne_of_lt hlen), List.getElem?_concat_length]
  · simp [Optional.mkCopyFromE, hp]
  · rw [h2]
    have hi2 : i < (w.boxes ++ [(Optional.mkCopyFromE b).box]).length := by
      rw [List.length_append]
      omega
    exact List.getElem?_set_eq_of_lt _ hi2

theorem claim_C8_witness :
    (stepOp (fun x => x)
        (stepOp (fun x => x) (⟨[⟨true, some 5⟩], 1, 0⟩ : World Nat)
          (Op.newCopyFrom 0))
        (Op.mutate 0 (fun x => x + 1))).boxes[1]?
      = some ⟨true, some 5⟩ :=
  (claim_C8 (fun x => x) ⟨[⟨true, some 5⟩], 1, 0⟩ 0 (fun x => x + 1)
    ⟨true, some 5⟩ rfl rfl).1

/-- Claim C9: if `T`'s copy constructor throws while a box is being
copy-constructed (from a present source box, or in place from a bare value),
the exception propagates unchanged and no box object comes into existence —
in particular no box with a true presence flag and no partially-constructed
value is ever reachable. -/
theorem claim_C9 {T E : Type} (copyF : T → Except E T) (other : Optional T)
    (v : T) (e : E) (hinit : other.is_initialized_ = true)
    (hdata : other.data_ = some v) (hthrow : copyF v = .error e) :
    Optional.mkCopyFromF copyF other = .error e ∧
    Optional.mkFromValueCopyF copyF v = .error e := by
  constructor
  · simp [Optional.mkCopyFromF, hinit, hdata, hthrow, Except.map]
  · simp [Optional.mkFromValueCopyF, hthrow, Except.map]

theorem claim_C9_witness :
    Optional.mkCopyFromF (fun _ : Nat => (Except.error 7 : Except Nat Nat))
      ⟨true, some 0⟩ = .error 7 :=
  (claim_C9 (fun _ => Except.error 7) ⟨true, some 0⟩ 0 7 rfl rfl rfl).1

/-- Claim C10: move-construction from a box and move-assignment from a box
leave the source box's presence flag untouched — a present source still
reports `HasValue() == true` and still holds a live (moved-from) `T` — and
destroying the boxes afterwards destroys that value exactly once: the
destruction totals equal the construction totals, so nothing is
double-destroyed. -/
theorem claim_C10 {T : Type} (mv : T → T) (src b rhs : Optional T) :
    (Optional.mkMoveFromE mv src).2.HasValue = src.HasValue ∧
    ((Optional.mkMoveFromE mv src).2.data_).isSome = (src.data_).isSome ∧
    (Optional.ResetE (Optional.mkMoveFromE mv src).2).dtors = liveN src ∧
    (Optional.ResetE (Optional.mkMoveFromE mv src).1.box).dtors
        + (Optional.ResetE (Optional.mkMoveFromE mv src).2).dtors
      = (Optional.mkMoveFromE mv src).1.ctors + liveN src ∧
    (Optional.assignMoveBoxE mv b rhs).2.HasValue = rhs.HasValue ∧
    ((Optional.assignMoveBoxE mv b rhs).2.data_).isSome = (rhs.data_).isSome ∧
    (Optional.ResetE (Optional.assignMoveBoxE mv b rhs).1.box).dtors
        + (Optional.ResetE (Optional.assignMoveBoxE mv b rhs).2).dtors
        + (Optional.assignMoveBoxE mv b rhs).1.dtors
      = liveN b + liveN rhs + (Optional.assignMoveBoxE mv b rhs).1.ctors := by
  obtain ⟨si, sd⟩ := src
  obtain ⟨bi, bd⟩ := b
  obtain ⟨ri, rd⟩ := rhs
  cases si <;> cases bi <;> cases ri <;>
    simp [Optional.mkMoveFromE, Optional.assignMoveBoxE, Optional.ResetE,
      Optional.HasValue, liveN]

end OptionalSpec
